import Mathlib

/-!
Shallow embedding of the EDAMAME score calculator (`score_calculator.py`)
and verification of its specification.

Modelling conventions:
* A parsed JSON threat-model document is modelled by `ThreatModel`; keys
  that may be absent are `Option` fields (`none` = key absent).
* Python's `KeyError` (missing required metric field, or a dictionary
  lookup miss in the dimension accumulator) is modelled by `Except String`.
* Python `int` is `Int`; Python floor division `//` is `Int.fdiv`.
* Python `float` arithmetic on `stars` and compliance `percentage` is
  modelled by exact rationals `ℚ` (written with the computable
  `Rat.divInt`, which equals field division by `Rat.divInt_eq_div`); the
  only float expressions in the code are `overall * 5.0 / 100.0` and
  `(100.0 * compliant) / total`, and both are exact in `ℚ`.
* The Python `set` of inactive threat names is modelled by a `List String`
  used only through membership (`List.contains`); `inactive_threats=None`
  in Python is immediately replaced by the empty set, so the model takes
  the list directly.
-/

set_option autoImplicit false

namespace ScoreCalc

instance exceptDecEq {ε α : Type} [DecidableEq ε] [DecidableEq α] :
    DecidableEq (Except ε α) := fun a b =>
  match a, b with
  | .error e, .error e₁ =>
    if h : e = e₁ then .isTrue (by rw [h]) else .isFalse (by intro hh; cases hh; exact h rfl)
  | .error _, .ok _ => .isFalse (by intro hh; cases hh)
  | .ok _, .error _ => .isFalse (by intro hh; cases hh)
  | .ok v, .ok v₁ =>
    if h : v = v₁ then .isTrue (by rw [h]) else .isFalse (by intro hh; cases hh; exact h rfl)

/-- A raw metric record of the parsed document.  Only the four fields read
by `compute_score` are modelled; `none` means the key is absent. -/
structure RawMetric where
  name : Option String
  dimension : Option String
  severity : Option Int
  tags : Option (List String)
deriving Repr, DecidableEq

/-- A parsed threat-model document: the two top-level keys read by
`compute_score` (`name` and `metrics`); `none` means the key is absent. -/
structure ThreatModel where
  name : Option String
  metrics : Option (List RawMetric)
deriving Repr, DecidableEq

/-- `MetricResult` dataclass: a single threat metric with its evaluated
status. -/
structure MetricResult where
  name : String
  dimension : String
  severity : Int
  tags : List String
  active : Bool
deriving Repr, DecidableEq

/-- `DimensionScore` dataclass: score for a single security dimension. -/
structure DimensionScore where
  name : String
  current : Int
  maximum : Int
  score : Int
deriving Repr, DecidableEq

/-- `ComplianceResult` dataclass: compliance percentage for a tag stem. -/
structure ComplianceResult where
  tag : String
  compliant : Nat
  total : Nat
  percentage : ℚ
deriving Repr, DecidableEq

/-- `ScoreResult` dataclass: complete score computation result.  The two
Python dictionaries (`dimensions`, `compliance`) are association lists in
their insertion order. -/
structure ScoreResult where
  platform : String
  dimensions : List (String × DimensionScore)
  overall : Int
  stars : ℚ
  compliance : List (String × ComplianceResult)
  metrics : List MetricResult
  total_metrics : Nat
  active_threats : Nat
  inactive_threats : Nat
deriving Repr, DecidableEq

/-- The `DIMENSIONS` constant: the five fixed dimension labels. -/
def DIMENSIONS : List String :=
  ["network", "system services", "system integrity", "credentials", "applications"]

/-- Association-list lookup (first match wins), modelling a Python
dictionary read `d[k]` that may miss. -/
def lookupA {α : Type} (k : String) : List (String × α) → Option α
  | [] => none
  | (k₁, v) :: rest => if k = k₁ then some v else lookupA k rest

/-- Association-list update of an existing key, modelling a Python
dictionary write `d[k] = v` for a key already present. -/
def updateAssoc {α : Type} (k : String) (v : α) : List (String × α) → List (String × α)
  | [] => []
  | (k₁, v₁) :: rest => if k₁ = k then (k₁, v) :: rest else (k₁, v₁) :: updateAssoc k v rest

/-- The initial dimension accumulator
`dim_accum = {d: (0, 0) for d in DIMENSIONS}`. -/
def initAccum : List (String × (Int × Int)) :=
  DIMENSIONS.map (fun d => (d, (0, 0)))

/-- Building one `MetricResult` from a raw record: the required keys
`name`, `dimension`, `severity` are read in that order and raise
`KeyError` when absent; `tags` defaults to `[]`
(`m.get("tags", [])`). -/
def buildMetric (inactive : List String) (all_inactive : Bool) (m : RawMetric) :
    Except String MetricResult :=
  match m.name with
  | none => .error "KeyError: name"
  | some name =>
    match m.dimension with
    | none => .error "KeyError: dimension"
    | some dimension =>
      match m.severity with
      | none => .error "KeyError: severity"
      | some severity =>
        let is_inactive := all_inactive || inactive.contains name
        .ok (MetricResult.mk name dimension severity (m.tags.getD []) (!is_inactive))

/-- The metric-building loop over `threat_model["metrics"]`: left to
right, stopping at the first `KeyError`. -/
def buildMetrics (inactive : List String) (all_inactive : Bool) :
    List RawMetric → Except String (List MetricResult)
  | [] => .ok []
  | m :: rest =>
    match buildMetric inactive all_inactive m with
    | .error e => .error e
    | .ok r =>
      match buildMetrics inactive all_inactive rest with
      | .error e => .error e
      | .ok rs => .ok (r :: rs)

/-- The dimension accumulation loop: for each metric, read
`dim_accum[m.dimension]` (a `KeyError` when the dimension is not one of
the five keys), add the severity to `maximum`, and to `current` when the
metric is inactive. -/
def dimensionPass (acc : List (String × (Int × Int))) :
    List MetricResult → Except String (List (String × (Int × Int)))
  | [] => .ok acc
  | m :: rest =>
    match lookupA m.dimension acc with
    | none => .error ("KeyError: " ++ m.dimension)
    | some (current, maximum) =>
      let current := if m.active = false then current + m.severity else current
      let maximum := maximum + m.severity
      dimensionPass (updateAssoc m.dimension (current, maximum) acc) rest

/-- Characters before the first comma of a character list. -/
def takeUntilComma : List Char → List Char
  | [] => []
  | c :: rest => if c = ',' then [] else c :: takeUntilComma rest

/-- Stem of a tag: the part before the first comma
(`tag[: tag.index(",")]`), or the whole tag when it has no comma.  Written
on the character list of the string so that it evaluates by kernel
reduction. -/
def stemOfTag (tag : String) : String :=
  String.mk (takeUntilComma tag.data)

/-- A character list is a prefix of another (helper for `strStartsWith`). -/
def startsWithChars : List Char → List Char → Bool
  | [], _ => true
  | _ :: _, [] => false
  | a :: ps, b :: cs => a = b && startsWithChars ps cs

/-- Python `str.startswith`: `t.startswith(p)`, on the character lists of
the strings so that it evaluates by kernel reduction. -/
def strStartsWith (t p : String) : Bool :=
  startsWithChars p.data t.data

/-- Keep one copy of each string (the Python `set` of stems keeps no
duplicates; only membership is observable before sorting). -/
def dedupStr : List String → List String
  | [] => []
  | s :: rest => if s ∈ rest then dedupStr rest else s :: dedupStr rest

/-- Ordered insertion into a sorted list of strings. -/
def insertSorted (s : String) : List String → List String
  | [] => [s]
  | t :: rest => if s ≤ t then s :: t :: rest else t :: insertSorted s rest

/-- Insertion sort on strings, modelling Python's `sorted`. -/
def sortStrings : List String → List String
  | [] => []
  | s :: rest => insertSorted s (sortStrings rest)

/-- All tag stems occurring in the metric list, with repetition. -/
def allStems (metrics : List MetricResult) : List String :=
  ((metrics.map (fun m => m.tags)).flatten).map stemOfTag

/-- `total` of the compliance loop for one stem: the number of
metric–tag pairs whose tag starts with the stem. -/
def totalCount (metrics : List MetricResult) (p : String) : Nat :=
  (metrics.map (fun m => (m.tags.filter (fun t => strStartsWith t p)).length)).sum

/-- `compliant` of the compliance loop for one stem: the number of
metric–tag pairs whose tag starts with the stem and whose metric is
inactive. -/
def compliantCount (metrics : List MetricResult) (p : String) : Nat :=
  (metrics.map (fun m =>
    if m.active then 0 else (m.tags.filter (fun t => strStartsWith t p)).length)).sum

/-- One `DimensionScore` from the accumulator: `current, maximum =
dim_accum[dim_name]` (the key is always present here, so the `getD`
default is never taken), then floored integer division, else `-1`. -/
def scoreOf (dim_accum : List (String × (Int × Int))) (d : String) : DimensionScore :=
  let cm := (lookupA d dim_accum).getD (0, 0)
  DimensionScore.mk d cm.1 cm.2
    (if cm.2 > 0 then Int.fdiv (100 * cm.1) cm.2 else -1)

/-- The pure tail of `compute_score` after the two fallible passes:
dimension scores, overall, stars, compliance and summary counts. -/
def assembleResult (platform : String) (metrics : List MetricResult)
    (dim_accum : List (String × (Int × Int))) : ScoreResult :=
  let dimensions := DIMENSIONS.map (fun d => (d, scoreOf dim_accum d))
  let overall_current := (dimensions.map (fun p => p.2.current)).sum
  let overall_max := (dimensions.map (fun p => p.2.maximum)).sum
  let overall : Int :=
    if overall_max > 0 then Int.fdiv (100 * overall_current) overall_max else 0
  let stars : ℚ := Rat.divInt (overall * 5) 100
  let stems := sortStrings (dedupStr (allStems metrics))
  let compliance := stems.filterMap (fun p =>
    let total := totalCount metrics p
    let compliant := compliantCount metrics p
    if total > 0 then
      some (p, ComplianceResult.mk p compliant total
        (Rat.divInt (100 * (compliant : Int)) (total : Int)))
    else none)
  ScoreResult.mk platform dimensions overall stars compliance metrics
    metrics.length (metrics.countP (fun m => m.active))
    (metrics.countP (fun m => !m.active))

/-- `compute_score(threat_model, inactive_threats, all_inactive)`. -/
def compute_score (threat_model : ThreatModel) (inactive_threats : List String)
    (all_inactive : Bool) : Except String ScoreResult :=
  let raw_metrics := threat_model.metrics.getD []
  let platform := threat_model.name.getD "unknown"
  match buildMetrics inactive_threats all_inactive raw_metrics with
  | .error e => .error e
  | .ok metrics =>
    match dimensionPass initAccum metrics with
    | .error e => .error e
    | .ok dim_accum => .ok (assembleResult platform metrics dim_accum)

/-- Sum of severities of the inactive metrics of dimension `d` (the
claimed value of `current`). -/
def dimCurrent (d : String) : List MetricResult → Int
  | [] => 0
  | m :: rest =>
    (if m.dimension = d ∧ m.active = false then m.severity else 0) + dimCurrent d rest

/-- Sum of severities of all metrics of dimension `d` (the claimed value
of `maximum`). -/
def dimMax (d : String) : List MetricResult → Int
  | [] => 0
  | m :: rest => (if m.dimension = d then m.severity else 0) + dimMax d rest

/-- Replace an absent `tags` key by an explicitly empty tag list. -/
def fillTags (m : RawMetric) : RawMetric :=
  RawMetric.mk m.name m.dimension m.severity (some (m.tags.getD []))

/-- Two-metric document realising `current=3, maximum=7` on the network
dimension once `t1` is inactive. -/
def doc37 : ThreatModel :=
  ThreatModel.mk (some "test")
    (some [RawMetric.mk (some "t1") (some "network") (some 3) (some []),
           RawMetric.mk (some "t2") (some "network") (some 4) (some [])])

/-- The result of `compute_score doc37 {t1} false`. -/
def result37 : ScoreResult :=
  ScoreResult.mk "test"
    [("network", DimensionScore.mk "network" 3 7 42),
     ("system services", DimensionScore.mk "system services" 0 0 (-1)),
     ("system integrity", DimensionScore.mk "system integrity" 0 0 (-1)),
     ("credentials", DimensionScore.mk "credentials" 0 0 (-1)),
     ("applications", DimensionScore.mk "applications" 0 0 (-1))]
    42 (Rat.divInt 21 10) []
    [MetricResult.mk "t1" "network" 3 [] false,
     MetricResult.mk "t2" "network" 4 [] true]
    2 1 1

/-- Document with a metric of an unrecognized dimension. -/
def badDimModel : ThreatModel :=
  ThreatModel.mk (some "bad")
    (some [RawMetric.mk (some "t1") (some "hardware") (some 1) (some [])])

/-- Document with an empty metric list. -/
def emptyModel : ThreatModel := ThreatModel.mk (some "empty") (some [])

/-- The result of `compute_score emptyModel ∅ b` for either flag value. -/
def emptyResult : ScoreResult :=
  ScoreResult.mk "empty"
    [("network", DimensionScore.mk "network" 0 0 (-1)),
     ("system services", DimensionScore.mk "system services" 0 0 (-1)),
     ("system integrity", DimensionScore.mk "system integrity" 0 0 (-1)),
     ("credentials", DimensionScore.mk "credentials" 0 0 (-1)),
     ("applications", DimensionScore.mk "applications" 0 0 (-1))]
    0 0 [] [] 0 0 0

/-- Two-metric document with a shared `CIS` tag stem. -/
def compDoc : ThreatModel :=
  ThreatModel.mk (some "c")
    (some [RawMetric.mk (some "t1") (some "network") (some 3) (some ["CIS,A"]),
           RawMetric.mk (some "t2") (some "network") (some 2) (some ["CIS,B"])])

/-- One-metric document used for the inert-inactive-name and
all-inactive witnesses. -/
def oneMetricDoc : ThreatModel :=
  ThreatModel.mk (some "one")
    (some [RawMetric.mk (some "a") (some "network") (some 3) (some [])])

/-- Whether a computation ended in a raised error. -/
def isErr {α : Type} (r : Except String α) : Bool :=
  match r with
  | .error _ => true
  | .ok _ => false

/-- The result of `compute_score oneMetricDoc ∅ true` (best case). -/
def oneBestResult : ScoreResult :=
  ScoreResult.mk "one"
    [("network", DimensionScore.mk "network" 3 3 100),
     ("system services", DimensionScore.mk "system services" 0 0 (-1)),
     ("system integrity", DimensionScore.mk "system integrity" 0 0 (-1)),
     ("credentials", DimensionScore.mk "credentials" 0 0 (-1)),
     ("applications", DimensionScore.mk "applications" 0 0 (-1))]
    100 (Rat.divInt 5 1) []
    [MetricResult.mk "a" "network" 3 [] false]
    1 0 1

/-- The result of `compute_score compDoc {t1} false`. -/
def compResult : ScoreResult :=
  ScoreResult.mk "c"
    [("network", DimensionScore.mk "network" 3 5 60),
     ("system services", DimensionScore.mk "system services" 0 0 (-1)),
     ("system integrity", DimensionScore.mk "system integrity" 0 0 (-1)),
     ("credentials", DimensionScore.mk "credentials" 0 0 (-1)),
     ("applications", DimensionScore.mk "applications" 0 0 (-1))]
    60 (Rat.divInt 3 1)
    [("CIS", ComplianceResult.mk "CIS" 1 2 (Rat.divInt 100 2))]
    [MetricResult.mk "t1" "network" 3 ["CIS,A"] false,
     MetricResult.mk "t2" "network" 2 ["CIS,B"] true]
    2 1 1

theorem lookupA_updateAssoc {α : Type} {k : String} {w : α} (d : String) (v : α)
    {l : List (String × α)} (h : lookupA k l = some w) :
    lookupA d (updateAssoc k v l) = if d = k then some v else lookupA d l := by
  induction l with
  | nil => simp [lookupA] at h
  | cons p rest ih =>
    obtain ⟨k₁, v₁⟩ := p
    by_cases hk : k₁ = k
    · subst hk
      by_cases hd : d = k₁ <;> simp [updateAssoc, lookupA, hd]
    · have hk2 : ¬ k = k₁ := fun hh => hk hh.symm
      rw [lookupA, if_neg hk2] at h
      by_cases hd : d = k₁
      · have hdk : ¬ d = k := by rw [hd]; exact hk
        simp [updateAssoc, lookupA, hk, hd, hdk]
      · simp [updateAssoc, lookupA, hk, hd, ih h]

theorem dimensionPass_lookup (ms : List MetricResult) :
    ∀ (acc acc' : List (String × (Int × Int))),
      dimensionPass acc ms = .ok acc' →
      ∀ (d : String) (c m : Int), lookupA d acc = some (c, m) →
        lookupA d acc' = some (c + dimCurrent d ms, m + dimMax d ms) := by
  induction ms with
  | nil =>
    intro acc acc' h d c m hl
    simp only [dimensionPass, Except.ok.injEq] at h
    subst h
    simpa [dimCurrent, dimMax] using hl
  | cons mh rest ih =>
    intro acc acc' h d c m hl
    simp only [dimensionPass] at h
    split at h
    · exact absurd h (by simp)
    · rename_i c0 m0 heq
      by_cases hd : d = mh.dimension
      · subst hd
        have hcm : c = c0 ∧ m = m0 := by
          rw [hl, Option.some.injEq, Prod.mk.injEq] at heq
          exact heq
        obtain ⟨rfl, rfl⟩ := hcm
        have hstep := lookupA_updateAssoc mh.dimension
          (if mh.active = false then c + mh.severity else c, m + mh.severity) hl
        rw [if_pos rfl] at hstep
        have hrec := ih _ _ h mh.dimension _ _ hstep
        rw [hrec]
        simp only [dimCurrent, dimMax, Option.some.injEq, Prod.mk.injEq]
        by_cases ha : mh.active = false <;> simp [ha] <;> omega
      · have hstep := lookupA_updateAssoc d
          (if mh.active = false then c0 + mh.severity else c0, m0 + mh.severity) heq
        rw [if_neg hd] at hstep
        rw [hl] at hstep
        have hrec := ih _ _ h d c m hstep
        rw [hrec]
        have hd2 : ¬ (mh.dimension = d) := fun hh => hd hh.symm
        simp [dimCurrent, dimMax, hd2]

theorem lookupA_map_self {α : Type} (f : String → α) (l : List String) (d : String)
    (hd : d ∈ l) : lookupA d (l.map (fun x => (x, f x))) = some (f d) := by
  induction l with
  | nil => cases hd
  | cons x rest ih =>
    by_cases h : d = x
    · subst h; simp [lookupA]
    · have hm : d ∈ rest := by
        cases hd with
        | head => exact absurd rfl h
        | tail _ hmem => exact hmem
      simp [lookupA, h, ih hm]

theorem lookupA_initAccum {d : String} (hd : d ∈ DIMENSIONS) :
    lookupA d initAccum = some (0, 0) :=
  lookupA_map_self (fun _ => ((0 : Int), (0 : Int))) DIMENSIONS d hd

theorem compute_score_ok_inv {tm : ThreatModel} {i : List String} {a : Bool}
    {res : ScoreResult} (h : compute_score tm i a = .ok res) :
    ∃ ms acc, buildMetrics i a (tm.metrics.getD []) = .ok ms ∧
      dimensionPass initAccum ms = .ok acc ∧
      res = assembleResult (tm.name.getD "unknown") ms acc := by
  simp only [compute_score] at h
  split at h
  · cases h
  · rename_i ms hb
    split at h
    · cases h
    · rename_i acc hp
      injection h with h
      exact ⟨ms, acc, hb, hp, h.symm⟩

theorem assembleResult_metrics (p : String) (ms : List MetricResult)
    (acc : List (String × (Int × Int))) : (assembleResult p ms acc).metrics = ms := rfl

theorem assembleResult_platform (p : String) (ms : List MetricResult)
    (acc : List (String × (Int × Int))) : (assembleResult p ms acc).platform = p := rfl

theorem assembleResult_dimensions (p : String) (ms : List MetricResult)
    (acc : List (String × (Int × Int))) :
    (assembleResult p ms acc).dimensions = DIMENSIONS.map (fun d => (d, scoreOf acc d)) := rfl

theorem assembleResult_total (p : String) (ms : List MetricResult)
    (acc : List (String × (Int × Int))) :
    (assembleResult p ms acc).total_metrics = ms.length := rfl

theorem assembleResult_active (p : String) (ms : List MetricResult)
    (acc : List (String × (Int × Int))) :
    (assembleResult p ms acc).active_threats = ms.countP (fun m => m.active) := rfl

theorem assembleResult_inactive (p : String) (ms : List MetricResult)
    (acc : List (String × (Int × Int))) :
    (assembleResult p ms acc).inactive_threats = ms.countP (fun m => !m.active) := rfl

theorem assembleResult_overall (p : String) (ms : List MetricResult)
    (acc : List (String × (Int × Int))) :
    (assembleResult p ms acc).overall =
      if ((assembleResult p ms acc).dimensions.map (fun q => q.2.maximum)).sum > 0
      then Int.fdiv (100 * ((assembleResult p ms acc).dimensions.map (fun q => q.2.current)).sum)
        (((assembleResult p ms acc).dimensions.map (fun q => q.2.maximum)).sum)
      else 0 := rfl

theorem assembleResult_stars (p : String) (ms : List MetricResult)
    (acc : List (String × (Int × Int))) :
    (assembleResult p ms acc).stars =
      Rat.divInt ((assembleResult p ms acc).overall * 5) 100 := rfl

theorem assembleResult_compliance (p : String) (ms : List MetricResult)
    (acc : List (String × (Int × Int))) :
    (assembleResult p ms acc).compliance =
      (sortStrings (dedupStr (allStems ms))).filterMap (fun q =>
        if totalCount ms q > 0 then
          some (q, ComplianceResult.mk q (compliantCount ms q) (totalCount ms q)
            (Rat.divInt (100 * (compliantCount ms q : Int)) (totalCount ms q : Int)))
        else none) := rfl

theorem lookupA_map_none {α : Type} (f : String → α) (l : List String) (d : String)
    (hd : d ∉ l) : lookupA d (l.map (fun x => (x, f x))) = none := by
  induction l with
  | nil => rfl
  | cons x rest ih =>
    have hdx : ¬ d = x := fun hh => hd (hh ▸ List.mem_cons_self x rest)
    have hdr : d ∉ rest := fun hh => hd (List.mem_cons_of_mem _ hh)
    simp [lookupA, hdx, ih hdr]

theorem lookupA_updateAssoc_none {α : Type} (k d : String) (v : α)
    (l : List (String × α)) (h : lookupA d l = none) :
    lookupA d (updateAssoc k v l) = none := by
  induction l with
  | nil => rfl
  | cons p rest ih =>
    obtain ⟨k₁, v₁⟩ := p
    by_cases hd : d = k₁
    · rw [lookupA, if_pos hd] at h; cases h
    · rw [lookupA, if_neg hd] at h
      by_cases hk : k₁ = k
      · subst hk
        simp [updateAssoc, lookupA, hd, h]
      · simp [updateAssoc, lookupA, hk, hd, h, ih h]

theorem lookupA_initAccum_none {d : String} (hd : d ∉ DIMENSIONS) :
    lookupA d initAccum = none :=
  lookupA_map_none (fun _ => ((0 : Int), (0 : Int))) DIMENSIONS d hd

theorem buildMetric_ok_inv {i : List String} {a : Bool} {m : RawMetric}
    {r : MetricResult} (h : buildMetric i a m = .ok r) :
    ∃ n d s, m.name = some n ∧ m.dimension = some d ∧ m.severity = some s ∧
      r = MetricResult.mk n d s (m.tags.getD []) (!(a || i.contains n)) := by
  obtain ⟨mn, md, ms, mt⟩ := m
  cases mn with
  | none => simp [buildMetric] at h
  | some n =>
    cases md with
    | none => simp [buildMetric] at h
    | some d =>
      cases ms with
      | none => simp [buildMetric] at h
      | some s =>
        simp only [buildMetric, Except.ok.injEq] at h
        exact ⟨n, d, s, rfl, rfl, rfl, h.symm⟩

theorem buildMetrics_ok_mem {i : List String} {a : Bool} {raw : List RawMetric}
    {ms : List MetricResult} (h : buildMetrics i a raw = .ok ms) {m : RawMetric}
    (hm : m ∈ raw) : ∃ r ∈ ms, buildMetric i a m = .ok r := by
  induction raw generalizing ms with
  | nil => cases hm
  | cons m0 rest ih =>
    simp only [buildMetrics] at h
    split at h
    · cases h
    · rename_i r hr
      split at h
      · cases h
      · rename_i rs hrs
        injection h with h
        subst h
        cases hm with
        | head => exact ⟨r, List.mem_cons_self _ _, hr⟩
        | tail _ hmem =>
          obtain ⟨r₁, hr₁m, hr₁⟩ := ih hrs hmem
          exact ⟨r₁, List.mem_cons_of_mem _ hr₁m, hr₁⟩

theorem dimensionPass_error_of_none (ms : List MetricResult) :
    ∀ acc, (∃ m ∈ ms, lookupA m.dimension acc = none) →
      ∃ e, dimensionPass acc ms = .error e := by
  induction ms with
  | nil =>
    intro acc h
    obtain ⟨m, hm, _⟩ := h
    cases hm
  | cons m0 rest ih =>
    intro acc h
    obtain ⟨m, hm, hnone⟩ := h
    cases hl : lookupA m0.dimension acc with
    | none => exact ⟨"KeyError: " ++ m0.dimension, by simp [dimensionPass, hl]⟩
    | some cm =>
      obtain ⟨c0, mx0⟩ := cm
      have hm1 : m ∈ rest := by
        cases hm with
        | head => rw [hnone] at hl; cases hl
        | tail _ hmem => exact hmem
      have hupd : lookupA m.dimension
          (updateAssoc m0.dimension
            (if m0.active = false then c0 + m0.severity else c0, mx0 + m0.severity) acc) = none :=
        lookupA_updateAssoc_none _ _ _ _ hnone
      obtain ⟨e, he⟩ := ih _ ⟨m, hm1, hupd⟩
      exact ⟨e, by simp [dimensionPass, hl, he]⟩

theorem compute_score_error_build {tm : ThreatModel} {i : List String} {a : Bool}
    {e : String} (h : buildMetrics i a (tm.metrics.getD []) = .error e) :
    compute_score tm i a = .error e := by
  simp [compute_score, h]

theorem compute_score_error_dim {tm : ThreatModel} {i : List String} {a : Bool}
    {ms : List MetricResult} {e : String}
    (hb : buildMetrics i a (tm.metrics.getD []) = .ok ms)
    (h : dimensionPass initAccum ms = .error e) :
    compute_score tm i a = .error e := by
  simp [compute_score, hb, h]

/-- C1: every successful `compute_score` result gives each of the five fixed
dimensions a `current` equal to the summed severity of its inactive metrics,
a `maximum` equal to the summed severity of all its metrics, and a score of
`floor(100 * current / maximum)` when `maximum > 0` and `-1` when
`maximum = 0`. -/
theorem claim_C1_dimension_score (tm : ThreatModel) (inact : List String) (ai : Bool)
    (res : ScoreResult) (h : compute_score tm inact ai = .ok res) :
    ∀ d ∈ DIMENSIONS, ∃ ds : DimensionScore,
      lookupA d res.dimensions = some ds ∧
      ds.current = dimCurrent d res.metrics ∧
      ds.maximum = dimMax d res.metrics ∧
      (ds.maximum > 0 → ds.score = Int.fdiv (100 * ds.current) ds.maximum) ∧
      (ds.maximum = 0 → ds.score = -1) := by
  obtain ⟨ms, acc, hb, hp, hres⟩ := compute_score_ok_inv h
  intro d hd
  have hacc := dimensionPass_lookup ms initAccum acc hp d 0 0 (lookupA_initAccum hd)
  simp only [zero_add] at hacc
  refine ⟨scoreOf acc d, ?_, ?_, ?_, ?_, ?_⟩
  · rw [hres, assembleResult_dimensions]
    exact lookupA_map_self (scoreOf acc) DIMENSIONS d hd
  · rw [hres, assembleResult_metrics]
    simp [scoreOf, hacc]
  · rw [hres, assembleResult_metrics]
    simp [scoreOf, hacc]
  · intro hpos
    simp only [scoreOf, hacc, Option.getD_some] at hpos ⊢
    rw [if_pos hpos]
  · intro hz
    simp only [scoreOf, hacc, Option.getD_some] at hz ⊢
    rw [hz]
    simp

/-- C1 witness: on `doc37` with `t1` inactive the network dimension has
`current = 3`, `maximum = 7` and score `42` (the integer-floor law). -/
theorem claim_C1_witness :
    compute_score doc37 ["t1"] false = .ok result37 ∧
    (lookupA "network" result37.dimensions).map
      (fun ds => (ds.current, ds.maximum, ds.score)) = some (3, 7, 42) := by
  obtain ⟨ds, h1, h2, h3, h4, h5⟩ :=
    claim_C1_dimension_score doc37 ["t1"] false result37 (by decide) "network" (by decide)
  refine ⟨by decide, ?_⟩
  have hc : ds.current = 3 := by rw [h2]; rfl
  have hm : ds.maximum = 7 := by rw [h3]; rfl
  have hs : ds.score = 42 := by
    rw [h4 (by rw [hm]; decide), hc, hm]
    decide
  rw [h1]
  simp [hc, hm, hs]

/-- C2: the overall score of a successful result is the floored percentage
of the summed dimension `current` values over the summed dimension
`maximum` values (when that summed maximum is positive), is `0` when the
summed maximum is `0`, and stars always equals `overall * 5 / 100`. -/
theorem claim_C2_overall_stars (tm : ThreatModel) (inact : List String) (ai : Bool)
    (res : ScoreResult) (h : compute_score tm inact ai = .ok res) :
    ((res.dimensions.map (fun q => q.2.maximum)).sum > 0 →
      res.overall = Int.fdiv (100 * (res.dimensions.map (fun q => q.2.current)).sum)
        ((res.dimensions.map (fun q => q.2.maximum)).sum)) ∧
    ((res.dimensions.map (fun q => q.2.maximum)).sum = 0 → res.overall = 0) ∧
    res.stars = (res.overall : ℚ) * 5 / 100 := by
  obtain ⟨ms, acc, hb, hp, hres⟩ := compute_score_ok_inv h
  subst hres
  refine ⟨?_, ?_, ?_⟩
  · intro hpos
    rw [assembleResult_overall, if_pos hpos]
  · intro hz
    rw [assembleResult_overall, if_neg (by rw [hz]; exact lt_irrefl 0)]
  · rw [assembleResult_stars, Rat.divInt_eq_div]
    push_cast
    ring

/-- C2 witness: on `doc37` with `t1` inactive the overall score is the
floored percentage of the summed currents over the summed maxima, equal to
42, and the stars are `overall * 5 / 100`. -/
theorem claim_C2_witness :
    compute_score doc37 ["t1"] false = .ok result37 ∧
    (result37.dimensions.map (fun q => q.2.maximum)).sum > 0 ∧
    result37.overall = Int.fdiv (100 * (result37.dimensions.map (fun q => q.2.current)).sum)
      ((result37.dimensions.map (fun q => q.2.maximum)).sum) ∧
    result37.overall = 42 ∧
    result37.stars = (result37.overall : ℚ) * 5 / 100 := by
  have h := claim_C2_overall_stars doc37 ["t1"] false result37 (by decide)
  exact ⟨by decide, by decide, h.1 (by decide), by decide, h.2.2⟩

/-- C7: the summary counts of a successful result satisfy
`active_threats + inactive_threats = total_metrics`, where `total_metrics`
is the length of the returned metric list, `active_threats` counts metrics
with `active = true` and `inactive_threats` counts `active = false`. -/
theorem claim_C7_counts (tm : ThreatModel) (inact : List String) (ai : Bool)
    (res : ScoreResult) (h : compute_score tm inact ai = .ok res) :
    res.active_threats + res.inactive_threats = res.total_metrics ∧
    res.total_metrics = res.metrics.length ∧
    res.active_threats = res.metrics.countP (fun m => m.active) ∧
    res.inactive_threats = res.metrics.countP (fun m => !m.active) := by
  obtain ⟨ms, acc, hb, hp, hres⟩ := compute_score_ok_inv h
  subst hres
  rw [assembleResult_active, assembleResult_inactive, assembleResult_total,
    assembleResult_metrics]
  refine ⟨?_, rfl, rfl, rfl⟩
  have hpred : (fun (a : MetricResult) => decide (¬ a.active = true)) = fun m => !m.active := by
    funext a
    cases ha : a.active <;> simp
  have hlen := (List.length_eq_countP_add_countP (fun m => m.active) ms).symm
  rw [hpred] at hlen
  exact hlen

/-- C7 witness: on `doc37` with `t1` inactive, 1 active + 1 inactive = 2
total metrics. -/
theorem claim_C7_witness :
    compute_score doc37 ["t1"] false = .ok result37 ∧
    result37.active_threats = 1 ∧ result37.inactive_threats = 1 ∧
    result37.active_threats + result37.inactive_threats = result37.total_metrics := by
  exact ⟨by decide, by decide, by decide,
    (claim_C7_counts doc37 ["t1"] false result37 (by decide)).1⟩

/-- C3 counterexample: a document with a metric of unrecognized dimension
`hardware` does not complete without error: `compute_score` raises a
`KeyError` on that dimension. -/
theorem claim_C3_counterexample :
    compute_score badDimModel [] false = .error "KeyError: hardware" := by decide

/-- C3 (amended): a document containing a metric whose `dimension` value
is a string outside the five fixed labels makes `compute_score` raise an
error (Python `KeyError`): no result is produced, so the metric is dropped
by failure rather than silently excluded. -/
theorem claim_C3_unknown_dimension_errors (tm : ThreatModel) (inact : List String)
    (ai : Bool) (m : RawMetric) (d : String) (hm : m ∈ tm.metrics.getD [])
    (hd : m.dimension = some d) (hnot : d ∉ DIMENSIONS) :
    isErr (compute_score tm inact ai) = true := by
  cases hb : buildMetrics inact ai (tm.metrics.getD []) with
  | error e => rw [compute_score_error_build hb]; rfl
  | ok ms =>
    obtain ⟨r, hrm, hr⟩ := buildMetrics_ok_mem hb hm
    obtain ⟨n, d₁, s, hn₁, hd₁, hs₁, hreq⟩ := buildMetric_ok_inv hr
    have hrd : r.dimension = d := by
      rw [hd] at hd₁
      injection hd₁ with hd₁
      rw [hreq, ← hd₁]
    have hnone : lookupA r.dimension initAccum = none := by
      rw [hrd]
      exact lookupA_initAccum_none hnot
    obtain ⟨e, he⟩ := dimensionPass_error_of_none ms initAccum ⟨r, hrm, hnone⟩
    rw [compute_score_error_dim hb he]
    rfl

/-- C3 witness: the amended claim at the concrete `badDimModel`. -/
theorem claim_C3_witness :
    (RawMetric.mk (some "t1") (some "hardware") (some 1) (some [])
      ∈ badDimModel.metrics.getD []) ∧
    "hardware" ∉ DIMENSIONS ∧
    isErr (compute_score badDimModel [] false) = true := by
  refine ⟨by decide, by decide, ?_⟩
  exact claim_C3_unknown_dimension_errors badDimModel [] false
    (RawMetric.mk (some "t1") (some "hardware") (some 1) (some [])) "hardware"
    (by decide) rfl (by decide)

theorem buildMetrics_all_inactive {i : List String} {raw : List RawMetric}
    {ms : List MetricResult} (h : buildMetrics i true raw = .ok ms) :
    ∀ r ∈ ms, r.active = false := by
  induction raw generalizing ms with
  | nil =>
    simp only [buildMetrics, Except.ok.injEq] at h
    subst h
    intro r hr
    cases hr
  | cons m0 rest ih =>
    simp only [buildMetrics] at h
    split at h
    · cases h
    · rename_i r0 hr0
      split at h
      · cases h
      · rename_i rs hrs
        injection h with h
        subst h
        intro r hr
        cases hr with
        | head =>
          obtain ⟨n, d, s, -, -, -, hreq⟩ := buildMetric_ok_inv hr0
          rw [hreq]
          rfl
        | tail _ hmem => exact ih hrs r hmem

theorem dimCurrent_eq_dimMax (d : String) (ms : List MetricResult)
    (h : ∀ r ∈ ms, r.active = false) : dimCurrent d ms = dimMax d ms := by
  induction ms with
  | nil => rfl
  | cons m0 rest ih =>
    have hm0 : m0.active = false := h m0 (List.mem_cons_self _ _)
    rw [dimCurrent, dimMax, ih (fun r hr => h r (List.mem_cons_of_mem _ hr))]
    congr 1
    simp [hm0]

/-- C4 counterexample: on the empty document, `all_inactive = true` gives
an overall score of 0, not the claimed 100. -/
theorem claim_C4_counterexample :
    compute_score emptyModel [] true = .ok emptyResult ∧
    emptyResult.overall = 0 ∧ ¬ emptyResult.overall = 100 :=
  ⟨by decide, by decide, by decide⟩

/-- C4 (amended): with `all_inactive = true`, any successful result has
every dimension of positive maximum scoring 100 and `active_threats = 0`;
when moreover the summed maximum over the five dimensions is positive,
`overall = 100` and `stars = 5.0`. -/
theorem claim_C4_all_inactive (tm : ThreatModel) (inact : List String)
    (res : ScoreResult) (h : compute_score tm inact true = .ok res) :
    (∀ q ∈ res.dimensions, q.2.maximum > 0 → q.2.score = 100) ∧
    res.active_threats = 0 ∧
    ((res.dimensions.map (fun q => q.2.maximum)).sum > 0 →
      res.overall = 100 ∧ res.stars = 5) := by
  obtain ⟨ms, acc, hb, hp, hres⟩ := compute_score_ok_inv h
  subst hres
  have hinact := buildMetrics_all_inactive hb
  have hkey : ∀ d ∈ DIMENSIONS, lookupA d acc = some (dimMax d ms, dimMax d ms) := by
    intro d hd
    have hacc := dimensionPass_lookup ms initAccum acc hp d 0 0 (lookupA_initAccum hd)
    simp only [zero_add] at hacc
    rw [hacc, dimCurrent_eq_dimMax d ms hinact]
  have hcur : ∀ d ∈ DIMENSIONS, (scoreOf acc d).current = (scoreOf acc d).maximum := by
    intro d hd
    simp [scoreOf, hkey d hd]
  have hscore : ∀ d ∈ DIMENSIONS, (scoreOf acc d).maximum > 0 →
      (scoreOf acc d).score = 100 := by
    intro d hd hpos
    simp only [scoreOf, hkey d hd, Option.getD_some] at hpos ⊢
    rw [if_pos hpos, Int.mul_fdiv_cancel _ (by omega)]
  refine ⟨?_, ?_, ?_⟩
  · intro q hq hpos
    rw [assembleResult_dimensions] at hq
    obtain ⟨d, hd, hqe⟩ := List.mem_map.1 hq
    subst hqe
    exact hscore d hd hpos
  · rw [assembleResult_active, List.countP_eq_zero]
    intro r hr
    simp [hinact r hr]
  · intro hpos
    have hsum : ((assembleResult (tm.name.getD "unknown") ms acc).dimensions.map
          (fun q => q.2.current)).sum
        = ((assembleResult (tm.name.getD "unknown") ms acc).dimensions.map
          (fun q => q.2.maximum)).sum := by
      rw [assembleResult_dimensions, List.map_map, List.map_map]
      congr 1
      refine List.map_congr_left ?_
      intro d hd
      simpa [Function.comp] using hcur d hd
    have hov : (assembleResult (tm.name.getD "unknown") ms acc).overall = 100 := by
      rw [assembleResult_overall, if_pos hpos, hsum, Int.mul_fdiv_cancel _ (by omega)]
    refine ⟨hov, ?_⟩
    rw [assembleResult_stars, hov]
    decide

/-- C4 witness: the amended claim at `oneMetricDoc` with `all_inactive`:
overall 100, stars 5.0, no active threats. -/
theorem claim_C4_witness :
    compute_score oneMetricDoc [] true = .ok oneBestResult ∧
    (oneBestResult.dimensions.map (fun q => q.2.maximum)).sum > 0 ∧
    oneBestResult.overall = 100 ∧ oneBestResult.stars = 5 ∧
    oneBestResult.active_threats = 0 := by
  have h := claim_C4_all_inactive oneMetricDoc [] oneBestResult (by decide)
  have h3 := h.2.2 (by decide)
  exact ⟨by decide, by decide, h3.1, h3.2, h.2.1⟩

/-- C5: a document whose metric list is empty is not an error: it yields
the platform name, all five dimension scores `-1` with `current = maximum
= 0`, overall `0`, stars `0.0`, no compliance entries, no metrics and zero
counts. -/
theorem claim_C5_empty_metrics (tm : ThreatModel) (inact : List String) (ai : Bool)
    (hempty : tm.metrics.getD [] = []) :
    compute_score tm inact ai =
      .ok (ScoreResult.mk (tm.name.getD "unknown")
        (DIMENSIONS.map (fun d => (d, DimensionScore.mk d 0 0 (-1))))
        0 0 [] [] 0 0 0) := by
  obtain ⟨nm, mets⟩ := tm
  simp only [compute_score, hempty]
  rfl

/-- C5 witness: the empty document evaluates to the all-empty result. -/
theorem claim_C5_witness :
    emptyModel.metrics.getD [] = [] ∧
    compute_score emptyModel [] false =
      .ok (ScoreResult.mk "empty"
        (DIMENSIONS.map (fun d => (d, DimensionScore.mk d 0 0 (-1))))
        0 0 [] [] 0 0 0) := by
  refine ⟨rfl, ?_⟩
  exact claim_C5_empty_metrics emptyModel [] false rfl

theorem buildMetrics_congr (s₁ s₂ : List String) (ai : Bool) (raw : List RawMetric)
    (h : ∀ m ∈ raw, ∀ n, m.name = some n → s₁.contains n = s₂.contains n) :
    buildMetrics s₁ ai raw = buildMetrics s₂ ai raw := by
  induction raw with
  | nil => rfl
  | cons m0 rest ih =>
    have hm0 : buildMetric s₁ ai m0 = buildMetric s₂ ai m0 := by
      obtain ⟨mn, md, ms, mt⟩ := m0
      cases mn with
      | none => rfl
      | some n =>
        cases md with
        | none => rfl
        | some d =>
          cases ms with
          | none => rfl
          | some s =>
            have hc := h _ (List.mem_cons_self _ _) n rfl
            simp only [buildMetric]
            rw [hc]
    simp only [buildMetrics, hm0, ih (fun m hm n hn => h m (List.mem_cons_of_mem _ hm) n hn)]

/-- C8: names in the inactive set that match no metric name are inert: two
inactive sets that agree on every metric name of the document give equal
`compute_score` results. -/
theorem claim_C8_unknown_names_inert (tm : ThreatModel) (s₁ s₂ : List String) (ai : Bool)
    (h : ∀ m ∈ tm.metrics.getD [], ∀ n, m.name = some n →
      s₁.contains n = s₂.contains n) :
    compute_score tm s₁ ai = compute_score tm s₂ ai := by
  simp only [compute_score, buildMetrics_congr s₁ s₂ ai _ h]

/-- C8 witness: adding the unmatched name `ghost` to the inactive set does
not change the result on `oneMetricDoc`. -/
theorem claim_C8_witness :
    compute_score oneMetricDoc [] false = compute_score oneMetricDoc ["ghost"] false := by
  apply claim_C8_unknown_names_inert
  intro m hm n hn
  simp only [oneMetricDoc, Option.getD_some, List.mem_singleton] at hm
  subst hm
  injection hn with hn
  subst hn
  decide

theorem buildMetrics_fillTags (i : List String) (a : Bool) (raw : List RawMetric) :
    buildMetrics i a (raw.map fillTags) = buildMetrics i a raw := by
  induction raw with
  | nil => rfl
  | cons m0 rest ih =>
    have hm0 : buildMetric i a (fillTags m0) = buildMetric i a m0 := by
      obtain ⟨mn, md, ms, mt⟩ := m0
      cases mn <;> cases md <;> cases ms <;> cases mt <;> rfl
    simp only [List.map_cons, buildMetrics, hm0, ih]

theorem buildMetrics_error_of_missing (i : List String) (a : Bool)
    (raw : List RawMetric) :
    ∀ m ∈ raw, (m.name = none ∨ m.dimension = none ∨ m.severity = none) →
      ∃ e, buildMetrics i a raw = .error e := by
  induction raw with
  | nil =>
    intro m hm
    cases hm
  | cons m0 rest ih =>
    intro m hm hmiss
    cases hb : buildMetric i a m0 with
    | error e => exact ⟨e, by simp [buildMetrics, hb]⟩
    | ok r =>
      have hm1 : m ∈ rest := by
        cases hm with
        | head =>
          obtain ⟨n, d, s, hn, hd, hs, -⟩ := buildMetric_ok_inv hb
          rcases hmiss with h1 | h1 | h1
          · rw [h1] at hn; cases hn
          · rw [h1] at hd; cases hd
          · rw [h1] at hs; cases hs
        | tail _ hmem => exact hmem
      obtain ⟨e, he⟩ := ih m hm1 hmiss
      exact ⟨e, by simp [buildMetrics, hb, he]⟩

/-- C10: an absent `metrics` key is an empty metric list; an absent `name`
key makes the platform `unknown`; an absent `tags` key on a metric is an
empty tag list; none of these is an error, while a metric missing `name`,
`dimension` or `severity` makes `compute_score` raise an error. -/
theorem claim_C10_missing_keys (nm : Option String) (mets : List RawMetric)
    (inact : List String) (ai : Bool) :
    (compute_score (ThreatModel.mk nm none) inact ai =
      compute_score (ThreatModel.mk nm (some [])) inact ai) ∧
    (compute_score (ThreatModel.mk none (some mets)) inact ai =
      compute_score (ThreatModel.mk (some "unknown") (some mets)) inact ai) ∧
    (∀ res, compute_score (ThreatModel.mk none (some mets)) inact ai = .ok res →
      res.platform = "unknown") ∧
    (compute_score (ThreatModel.mk nm (some (mets.map fillTags))) inact ai =
      compute_score (ThreatModel.mk nm (some mets)) inact ai) ∧
    (∀ m ∈ mets, (m.name = none ∨ m.dimension = none ∨ m.severity = none) →
      isErr (compute_score (ThreatModel.mk nm (some mets)) inact ai) = true) := by
  refine ⟨rfl, rfl, ?_, ?_, ?_⟩
  · intro res h
    obtain ⟨ms, acc, hb, hp, hres⟩ := compute_score_ok_inv h
    rw [hres, assembleResult_platform]
    rfl
  · simp only [compute_score]
    rw [show (ThreatModel.mk nm (some (mets.map fillTags))).metrics.getD []
        = mets.map fillTags from rfl,
      show (ThreatModel.mk nm (some mets)).metrics.getD [] = mets from rfl,
      buildMetrics_fillTags]
  · intro m hm hmiss
    obtain ⟨e, he⟩ := buildMetrics_error_of_missing inact ai mets m hm hmiss
    have he1 : buildMetrics inact ai ((ThreatModel.mk nm (some mets)).metrics.getD [])
        = .error e := he
    rw [compute_score_error_build he1]
    rfl

/-- C10 witness: concrete instances of each benign omission and of the
fatal missing `name`. -/
theorem claim_C10_witness :
    (compute_score (ThreatModel.mk (some "p") none) [] false =
      compute_score (ThreatModel.mk (some "p") (some [])) [] false) ∧
    (RawMetric.mk none (some "network") (some 1) none
      ∈ [RawMetric.mk none (some "network") (some 1) none]) ∧
    isErr (compute_score (ThreatModel.mk (some "p")
      (some [RawMetric.mk none (some "network") (some 1) none])) [] false) = true := by
  have h := claim_C10_missing_keys (some "p")
    [RawMetric.mk none (some "network") (some 1) none] [] false
  exact ⟨h.1, by decide,
    h.2.2.2.2 (RawMetric.mk none (some "network") (some 1) none) (by decide) (Or.inl rfl)⟩

theorem mem_insertSorted (a s : String) (l : List String) :
    a ∈ insertSorted s l ↔ a = s ∨ a ∈ l := by
  induction l with
  | nil => simp [insertSorted]
  | cons t rest ih =>
    by_cases h : s ≤ t
    · simp [insertSorted, h]
    · simp only [insertSorted, if_neg h, List.mem_cons, ih]
      tauto

theorem mem_sortStrings (a : String) (l : List String) :
    a ∈ sortStrings l ↔ a ∈ l := by
  induction l with
  | nil => simp [sortStrings]
  | cons s rest ih => simp [sortStrings, mem_insertSorted, ih]

theorem mem_dedupStr (a : String) (l : List String) : a ∈ dedupStr l ↔ a ∈ l := by
  induction l with
  | nil => simp [dedupStr]
  | cons s rest ih =>
    by_cases h : s ∈ rest
    · rw [dedupStr, if_pos h, ih]
      constructor
      · exact fun hm => List.mem_cons_of_mem _ hm
      · intro hm
        cases hm with
        | head => exact h
        | tail _ hmem => exact hmem
    · rw [dedupStr, if_neg h]
      simp [ih]

theorem compliance_mem_iff (ms : List MetricResult) (p : String) (c : ComplianceResult) :
    ((p, c) ∈ (sortStrings (dedupStr (allStems ms))).filterMap (fun q =>
        if totalCount ms q > 0 then
          some (q, ComplianceResult.mk q (compliantCount ms q) (totalCount ms q)
            (Rat.divInt (100 * (compliantCount ms q : Int)) (totalCount ms q : Int)))
        else none)) ↔
      (p ∈ allStems ms ∧ 0 < totalCount ms p ∧
        c = ComplianceResult.mk p (compliantCount ms p) (totalCount ms p)
          (Rat.divInt (100 * (compliantCount ms p : Int)) (totalCount ms p : Int))) := by
  rw [List.mem_filterMap]
  constructor
  · rintro ⟨q, hq, hfq⟩
    by_cases ht : totalCount ms q > 0
    · rw [if_pos ht, Option.some.injEq, Prod.mk.injEq] at hfq
      obtain ⟨rfl, rfl⟩ := hfq
      rw [mem_sortStrings, mem_dedupStr] at hq
      exact ⟨hq, ht, rfl⟩
    · rw [if_neg ht] at hfq
      cases hfq
  · rintro ⟨hp, ht, rfl⟩
    refine ⟨p, ?_, ?_⟩
    · rw [mem_sortStrings, mem_dedupStr]
      exact hp
    · rw [if_pos ht]

/-- C6: a compliance entry is emitted exactly for the tag stems (the part
of some metric tag before its first comma, or the whole tag) with positive
`total`; `total` counts the metric–tag pairs whose tag starts with the
stem, `compliant` those of inactive metrics, and the percentage is exactly
`100 * compliant / total` as an unrounded rational. -/
theorem claim_C6_compliance (tm : ThreatModel) (inact : List String) (ai : Bool)
    (res : ScoreResult) (h : compute_score tm inact ai = .ok res) (p : String) :
    ((∃ c, (p, c) ∈ res.compliance) ↔
      (p ∈ allStems res.metrics ∧ 0 < totalCount res.metrics p)) ∧
    (∀ c, (p, c) ∈ res.compliance →
      c = ComplianceResult.mk p (compliantCount res.metrics p) (totalCount res.metrics p)
        (100 * (compliantCount res.metrics p : ℚ) / (totalCount res.metrics p : ℚ))) := by
  obtain ⟨ms, acc, hb, hp, hres⟩ := compute_score_ok_inv h
  subst hres
  simp only [assembleResult_compliance, assembleResult_metrics]
  constructor
  · constructor
    · rintro ⟨c, hc⟩
      have hh := (compliance_mem_iff ms p c).1 hc
      exact ⟨hh.1, hh.2.1⟩
    · rintro ⟨h1, h2⟩
      exact ⟨_, (compliance_mem_iff ms p _).2 ⟨h1, h2, rfl⟩⟩
  · intro c hc
    have hh := (compliance_mem_iff ms p c).1 hc
    rw [hh.2.2]
    congr 1
    rw [Rat.divInt_eq_div]
    push_cast
    ring

/-- C6 witness: on `compDoc` with `t1` inactive the stem `CIS` is emitted
with `compliant = 1`, `total = 2` and percentage exactly 50.0. -/
theorem claim_C6_witness :
    compute_score compDoc ["t1"] false = .ok compResult ∧
    ("CIS", ComplianceResult.mk "CIS" 1 2 (Rat.divInt 100 2)) ∈ compResult.compliance ∧
    (ComplianceResult.mk "CIS" 1 2 (Rat.divInt 100 2)).percentage = 50 := by
  have h := claim_C6_compliance compDoc ["t1"] false compResult (by decide) "CIS"
  obtain ⟨c, hc⟩ := h.1.2 ⟨by decide, by decide⟩
  have hceq := h.2 c hc
  have h1 : compliantCount compResult.metrics "CIS" = 1 := by decide
  have h2 : totalCount compResult.metrics "CIS" = 2 := by decide
  have hform : ComplianceResult.mk "CIS" (compliantCount compResult.metrics "CIS")
      (totalCount compResult.metrics "CIS")
      (100 * (compliantCount compResult.metrics "CIS" : ℚ)
        / (totalCount compResult.metrics "CIS" : ℚ))
      = ComplianceResult.mk "CIS" 1 2 (Rat.divInt 100 2) := by
    rw [h1, h2]
    congr 1
    rw [Rat.divInt_eq_div]
    norm_num
  refine ⟨by decide, ?_, ?_⟩
  · rw [hceq, hform] at hc
    exact hc
  · show Rat.divInt 100 2 = 50
    decide

end ScoreCalc
